import Mathlib

/-!
# Validator uptime scoring (`util/uptime/src/uptime.go`)

A shallow embedding of the aggregation query, the scoring loop and the report
rows of the uptime tool, followed by the properties established about them.

Conventions of the embedding:

* Go `int64` values are integers; where the program does arithmetic on them the
  result is reduced to the signed 64-bit range by `wrap64`.
* Go `float64` values are exact rationals extended with the IEEE special values
  `+Inf`, `-Inf` and `NaN` (type `Float64`). Rounding is not modelled, and the
  only zero is `+0`, which is the zero the program's one subtraction yields.
* An index into an empty slice is a run-time panic: `Except.error`.
-/

namespace Uptime

/-! ## Machine integers -/

/-- Two's-complement reduction of an integer to the signed 64-bit range. -/
def wrap64 (x : Int) : Int := (x + 2 ^ 63) % 2 ^ 64 - 2 ^ 63

/-- The values an `int64` can hold. -/
def isInt64 (x : Int) : Prop := -(2 ^ 63) ≤ x ∧ x < 2 ^ 63

instance (x : Int) : Decidable (isInt64 x) := by unfold isInt64; infer_instance

/-! ## `CalculateUpgradePoints` (uptime.go, lines 129-138) -/

/-- `CalculateUpgradePoints`: zero for the upgrade block `0`, otherwise
`upgradePointsPerBlock * (endBlockHeight - upgradeBlock + 1)`, every operation in `int64`. -/
def CalculateUpgradePoints (upgradePointsPerBlock upgradeBlock endBlockHeight : Int) : Int :=
  if upgradeBlock = 0 then 0
  else
    let points := wrap64 (upgradePointsPerBlock * wrap64 (wrap64 (endBlockHeight - upgradeBlock) + 1))
    points

/-! ## Floating point values -/

/-- A `float64` value: an exact rational, or one of the IEEE special values. -/
inductive Float64 where
  | fin (q : ℚ)
  | posInf
  | negInf
  | nan
  deriving DecidableEq

namespace Float64

/-- The conversion `float64(i)` of an `int64`. -/
def ofInt64 (i : Int) : Float64 := fin (i : ℚ)

/-- IEEE negation. -/
def neg : Float64 → Float64
  | fin a => fin (-a)
  | posInf => negInf
  | negInf => posInf
  | nan => nan

/-- IEEE addition. -/
def add : Float64 → Float64 → Float64
  | fin a, fin b => fin (a + b)
  | fin _, posInf => posInf
  | fin _, negInf => negInf
  | posInf, fin _ => posInf
  | posInf, posInf => posInf
  | negInf, fin _ => negInf
  | negInf, negInf => negInf
  | _, _ => nan

/-- IEEE subtraction. -/
def sub (x y : Float64) : Float64 := add x (neg y)

/-- The infinity with the sign of `s * t`, for `s` the sign of an infinity (`true` is
positive) and `t` a rational; a zero `t` counts as positive (`+0`). -/
def infOfSign (s : Bool) (t : ℚ) : Float64 :=
  if (s = true ↔ 0 ≤ t) then posInf else negInf

/-- IEEE multiplication. -/
def mul : Float64 → Float64 → Float64
  | fin a, fin b => fin (a * b)
  | fin a, posInf => if a = 0 then nan else infOfSign true a
  | fin a, negInf => if a = 0 then nan else infOfSign false a
  | posInf, fin b => if b = 0 then nan else infOfSign true b
  | negInf, fin b => if b = 0 then nan else infOfSign false b
  | posInf, posInf => posInf
  | posInf, negInf => negInf
  | negInf, posInf => negInf
  | negInf, negInf => posInf
  | _, _ => nan

/-- IEEE division: a non-zero finite value over zero is an infinity, zero over zero is
`NaN`, and no division traps. -/
def div : Float64 → Float64 → Float64
  | fin a, fin b =>
    if b = 0 then (if a = 0 then nan else infOfSign true a) else fin (a / b)
  | fin _, posInf => fin 0
  | fin _, negInf => fin 0
  | posInf, fin b => infOfSign true b
  | negInf, fin b => infOfSign false b
  | _, _ => nan

end Float64

/-! ## Data model (`db/db.go` and the result type of `QueryValAggregateData`) -/

/-- A document of the `blocks` collection (`db.Blocks`). -/
structure Blocks where
  ID : String
  Height : Int
  Validators : List String

/-- The `description` of a validator (`db.Description`). -/
structure Description where
  Moniker : String
  deriving DecidableEq

/-- A document of the `validators` collection (`db.Validator`). -/
structure Validator where
  Address : String
  OperatorAddress : String
  Description : Description

/-- An element of the joined `validator_details` array, as `CalculateUptime` reads it:
`Address`, `Operator_address` and `Description.Moniker`. -/
structure ValidatorDetails where
  Address : String
  Operator_address : String
  Description : Description
  deriving DecidableEq

/-- An element of what `QueryValAggregateData` returns, as `CalculateUptime` reads it:
the group key, the three sums of the `$group` stage and the joined metadata array. -/
structure ValAggregateResult where
  ID : String
  Uptime_count : Int
  Upgrade1_block : Int
  Upgrade2_block : Int
  Validator_details : List ValidatorDetails
  deriving DecidableEq

/-- The scoring fields of a validator (`Info`), as `CalculateUptime` writes them. -/
structure Info where
  OperatorAddr : String
  Moniker : String
  UptimeCount : Int
  Upgrade1Points : Int
  Upgrade2Points : Int
  UptimePoints : Float64
  TotalPoints : Float64
  deriving DecidableEq

/-- A validator record (`ValidatorInfo`). -/
structure ValidatorInfo where
  ValAddress : String
  Info : Info
  deriving DecidableEq

/-! ## `GenerateAggregateQuery` (uptime.go, lines 37-127) -/

/-- The pipeline `GenerateAggregateQuery` builds. Its shape is fixed (`$match`, `$unwind`,
`$group`, `$lookup`); the six bounds are the only parts that vary, and each field here is
the bound at the place of the pipeline its name says. -/
structure AggQuery where
  /-- The bound of `$match ... "height": {"$gte": startBlock}`. -/
  matchGte : Int
  /-- The bound of `$match ... "height": {"$lte": endBlock}`. -/
  matchLte : Int
  /-- The bound of `upgrade1_block ... {"$gte": ["$height", elChocoStartBlock]}`. -/
  upgrade1Gte : Int
  /-- The bound of `upgrade1_block ... {"$lte": ["$height", elChocoEndBlock]}`. -/
  upgrade1Lte : Int
  /-- The bound of `upgrade2_block ... {"$gte": ["$height", amazonasStartBlock]}`. -/
  upgrade2Gte : Int
  /-- The bound of `upgrade2_block ... {"$lte": ["$height", amazonasEndBlock]}`. -/
  upgrade2Lte : Int
  deriving DecidableEq

/-- `GenerateAggregateQuery`: the pipeline for the given range and the two upgrade windows. -/
def GenerateAggregateQuery (startBlock endBlock elChocoStartBlock elChocoEndBlock
    amazonasStartBlock amazonasEndBlock : Int) : AggQuery :=
  { matchGte := startBlock
    matchLte := endBlock
    upgrade1Gte := elChocoStartBlock
    upgrade1Lte := elChocoEndBlock
    upgrade2Gte := amazonasStartBlock
    upgrade2Lte := amazonasEndBlock }

/-! ### The pipeline read as a filter, a flattening and a grouped fold -/

/-- The `$match` stage: the blocks with `matchGte ≤ height` and `height ≤ matchLte`. -/
def matchStage (q : AggQuery) (blocks : List Blocks) : List Blocks :=
  blocks.filter (fun b => decide (q.matchGte ≤ b.Height) && decide (b.Height ≤ q.matchLte))

/-- A document after `$unwind`: a block with its `validators` array replaced by one of its
elements. -/
structure Unwound where
  Height : Int
  Validators : String
  deriving DecidableEq

/-- The `$unwind: "$validators"` stage: one document per element of each array, in order. -/
def unwindStage (blocks : List Blocks) : List Unwound :=
  blocks.flatMap (fun b => b.Validators.map (fun v => { Height := b.Height, Validators := v }))

/-- A document of the `$group` stage: the key `_id` and the three accumulators. -/
structure Group where
  ID : String
  Uptime_count : Int
  Upgrade1_block : Int
  Upgrade2_block : Int
  deriving DecidableEq

/-- The value `$cond: [{$and: [{$gte: ["$height", lo]}, {$lte: ["$height", hi]}]}, 1, 0]`. -/
def condInRange (height lo hi : Int) : Int :=
  if lo ≤ height ∧ height ≤ hi then 1 else 0

/-- One document folded into the groups: the group of its validator gets `uptime_count`
plus one and each window sum plus its `$cond` value; a validator with no group yet gets
a new one at the end. -/
def groupStep (q : AggQuery) : List Group → Unwound → List Group
  | [], d =>
    [{ ID := d.Validators
       Uptime_count := 1
       Upgrade1_block := condInRange d.Height q.upgrade1Gte q.upgrade1Lte
       Upgrade2_block := condInRange d.Height q.upgrade2Gte q.upgrade2Lte }]
  | g :: gs, d =>
    if g.ID = d.Validators then
      { ID := g.ID
        Uptime_count := g.Uptime_count + 1
        Upgrade1_block := g.Upgrade1_block + condInRange d.Height q.upgrade1Gte q.upgrade1Lte
        Upgrade2_block := g.Upgrade2_block + condInRange d.Height q.upgrade2Gte q.upgrade2Lte }
        :: gs
    else g :: groupStep q gs d

/-- The `$group` stage: the fold of `groupStep` over the unwound documents. -/
def groupStage (q : AggQuery) (docs : List Unwound) : List Group :=
  docs.foldl (groupStep q) []

/-- The `$lookup` stage: each group joined with the projection of the validators whose
`address` equals the group key. -/
def lookupStage (validators : List Validator) (groups : List Group) : List ValAggregateResult :=
  groups.map (fun g =>
    { ID := g.ID
      Uptime_count := g.Uptime_count
      Upgrade1_block := g.Upgrade1_block
      Upgrade2_block := g.Upgrade2_block
      Validator_details :=
        (validators.filter (fun v => decide (v.Address = g.ID))).map (fun v =>
          { Address := v.Address
            Operator_address := v.OperatorAddress
            Description := v.Description }) })

/-- The first three stages of the pipeline run over a list of blocks. -/
def aggregateGroups (q : AggQuery) (blocks : List Blocks) : List Group :=
  groupStage q (unwindStage (matchStage q blocks))

/-- The whole pipeline run over the two collections. -/
def runAggregate (blocks : List Blocks) (validators : List Validator) (q : AggQuery) :
    List ValAggregateResult :=
  lookupStage validators (aggregateGroups q blocks)

/-! ## `CalculateUptime` (uptime.go, lines 140-215) -/

/-- The configuration values `CalculateUptime` reads, each an `int64`. -/
structure Config where
  node_rewards : Int
  el_choco_startblock : Int
  el_choco_endblock : Int
  el_choco_reward_points_per_block : Int
  amazonas_startblock : Int
  amazonas_endblock : Int
  amazonas_reward_points_per_block : Int

/-- The run-time panic of an index expression `xs[0]` on an empty slice. -/
def indexPanic : String := "runtime error: index out of range [0] with length 0"

/-- The index expression `xs[0]`. -/
def index0 {α : Type} : List α → Except String α
  | [] => .error indexPanic
  | x :: _ => .ok x

/-- The composite literal of lines 169-178: the validator record built from one result. -/
def buildValInfo (obj : ValAggregateResult) : Except String ValidatorInfo := do
  let d0 ← index0 obj.Validator_details
  let d1 ← index0 obj.Validator_details
  let d2 ← index0 obj.Validator_details
  pure
    { ValAddress := d0.Address
      Info :=
        { OperatorAddr := d1.Operator_address
          Moniker := d2.Description.Moniker
          UptimeCount := obj.Uptime_count
          Upgrade1Points := obj.Upgrade1_block
          Upgrade2Points := obj.Upgrade2_block
          UptimePoints := Float64.fin 0
          TotalPoints := Float64.fin 0 } }

/-- The loop of lines 168-181: every result appended to `validatorsList` as a record. -/
def buildValidatorsList :
    List ValAggregateResult → List ValidatorInfo → Except String (List ValidatorInfo)
  | [], validatorsList => .ok validatorsList
  | obj :: rest, validatorsList =>
    match buildValInfo obj with
    | .error e => .error e
    | .ok valInfo => buildValidatorsList rest (validatorsList ++ [valInfo])

/-- The value `uptimePoints` of lines 185-186 for a record with the given uptime count. -/
def uptimePointsOf (uptimeCount startBlock endBlock : Int) : Float64 :=
  let uptime := Float64.div (Float64.ofInt64 uptimeCount)
    (Float64.sub (Float64.ofInt64 endBlock) (Float64.ofInt64 startBlock))
  Float64.mul uptime (Float64.fin 300)

/-- The body of the loop of lines 184-190 on one record. -/
def scoreValidator (nodeRewards startBlock endBlock : Int) (v : ValidatorInfo) : ValidatorInfo :=
  let uptimePoints := uptimePointsOf v.Info.UptimeCount startBlock endBlock
  { v with
    Info :=
      { v.Info with
        UptimePoints := uptimePoints
        TotalPoints :=
          Float64.add
            (Float64.add
              (Float64.add (Float64.ofInt64 v.Info.Upgrade1Points)
                (Float64.ofInt64 v.Info.Upgrade2Points))
              uptimePoints)
            (Float64.ofInt64 nodeRewards) } }

/-- The call `strconv.Itoa(int(x))` on an `int64`, for the 64-bit `int`: the decimal
digits, after a minus sign for a negative number. -/
def Itoa (x : Int) : String := toString x

/-- The address shown in the table (lines 198-203). -/
def tableAddress (data : ValidatorInfo) : String :=
  let address := data.Info.OperatorAddr
  if address = "" then data.ValAddress ++ " (Hex Address)" else address

/-- The header line of the table (lines 194-195). -/
def tableHeader : String :=
  " Operator Addr \t Moniker\t Uptime Count " ++
    "\t Upgrade1 points \t Upgrade2 points \t Uptime points \t Node points \t Total points"

/-- The line of the table for one record (lines 205-208); `sprintf` is
`fmt.Sprintf("%f", _)`. -/
def tableLine (sprintf : Float64 → String) (nodeRewards : Int) (data : ValidatorInfo) : String :=
  " " ++ tableAddress data ++ "\t " ++ data.Info.Moniker ++
    "\t  " ++ Itoa data.Info.UptimeCount ++ "\t " ++ Itoa data.Info.Upgrade1Points ++
    " \t" ++ Itoa data.Info.Upgrade2Points ++ " \t" ++ sprintf data.Info.UptimePoints ++
    "\t" ++ Itoa nodeRewards ++ "\t" ++ sprintf data.Info.TotalPoints

/-! ## `ExportToCsv` (uptime.go, lines 217-261) -/

/-- The header row of the CSV file (lines 219-222). -/
def Header : List String :=
  ["ValOper Address", "Moniker", "Uptime Count", "elChoco Points",
    "Upgrade2 Points", "Uptime Points", "Node points"]

/-- The address written to the CSV file (lines 240-245). -/
def csvAddress (record : ValidatorInfo) : String :=
  let address := record.Info.OperatorAddr
  if address = "" then record.ValAddress ++ " (Hex Address)" else address

/-- The row `addrObj` of one record (lines 247-254). -/
def addrObj (sprintf : Float64 → String) (nodeRewards : Int) (record : ValidatorInfo) :
    List String :=
  let address := csvAddress record
  let uptimeCount := Itoa record.Info.UptimeCount
  let up1Points := Itoa record.Info.Upgrade1Points
  let up2Points := Itoa record.Info.Upgrade2Points
  let uptimePoints := sprintf record.Info.UptimePoints
  let nodePoints := Itoa nodeRewards
  let totalPoints := sprintf record.Info.TotalPoints
  [address, record.Info.Moniker, uptimeCount, up1Points,
    up2Points, uptimePoints, nodePoints, totalPoints]

/-- `ExportToCsv`: the rows handed to the CSV writer, in the order of the calls of
`writer.Write`: the header, then the loop over the records. The file is taken to be
created and every write to succeed (the other paths end the process). -/
def ExportToCsv (sprintf : Float64 → String) (data : List ValidatorInfo) (nodeRewards : Int) :
    List (List String) :=
  data.foldl (fun written record => written ++ [addrObj sprintf nodeRewards record]) [Header]

/-- What a run of `CalculateUptime` produces: the scored records, the lines printed to the
table writer and the rows handed to the CSV writer. -/
structure Report where
  validatorsList : List ValidatorInfo
  table : List String
  csv : List (List String)

/-- `CalculateUptime`, with the database call and `fmt.Sprintf("%f", _)` as parameters.
The result is the report, or the panic that ended the run. The database call is taken on
the path where it returns its results without an error. The two `points_per_block`
values of the configuration are read by the source into package variables and used
nowhere in the function, so they do not occur below. -/
def CalculateUptime (cfg : Config) (QueryValAggregateData : AggQuery → List ValAggregateResult)
    (sprintf : Float64 → String) (startBlock endBlock : Int) : Except String Report :=
  let nodeRewards := cfg.node_rewards
  let elChocoStartBlock := wrap64 (cfg.el_choco_startblock + 1)
  let elChocoEndBlock := wrap64 (cfg.el_choco_endblock + 1)
  let amazonasStartBlock := wrap64 (cfg.amazonas_startblock + 1)
  let amazonasEndBlock := wrap64 (cfg.amazonas_endblock + 1)
  let aggQuery := GenerateAggregateQuery startBlock endBlock elChocoStartBlock
    elChocoEndBlock amazonasStartBlock amazonasEndBlock
  let results := QueryValAggregateData aggQuery
  match buildValidatorsList results [] with
  | .error e => .error e
  | .ok validatorsList =>
    let scored := validatorsList.map (scoreValidator nodeRewards startBlock endBlock)
    .ok
      { validatorsList := scored
        table := tableHeader :: scored.map (tableLine sprintf nodeRewards)
        csv := ExportToCsv sprintf scored nodeRewards }

/-- The query `CalculateUptime` builds (lines 145-159): the requested range, and the window
bounds of the configuration, each plus one. -/
def uptimeQuery (cfg : Config) (startBlock endBlock : Int) : AggQuery :=
  GenerateAggregateQuery startBlock endBlock
    (wrap64 (cfg.el_choco_startblock + 1)) (wrap64 (cfg.el_choco_endblock + 1))
    (wrap64 (cfg.amazonas_startblock + 1)) (wrap64 (cfg.amazonas_endblock + 1))

/-! ## Sample inputs -/

/-- Blocks used to instantiate the aggregation theorems: two validators inside the range
`[1, 5]` and one that only signs block 9. -/
def sampleBlocks : List Blocks :=
  [{ ID := "b1", Height := 1, Validators := ["V1", "V2"] },
   { ID := "b2", Height := 2, Validators := ["V1"] },
   { ID := "b9", Height := 9, Validators := ["V3"] }]

/-- The blocks of the scenario: heights 1 to 5, each signed by `V1`. -/
def scenarioBlocks : List Blocks :=
  [{ ID := "b1", Height := 1, Validators := ["V1"] },
   { ID := "b2", Height := 2, Validators := ["V1"] },
   { ID := "b3", Height := 3, Validators := ["V1"] },
   { ID := "b4", Height := 4, Validators := ["V1"] },
   { ID := "b5", Height := 5, Validators := ["V1"] }]

/-- The metadata of `V1`. -/
def scenarioValidators : List Validator :=
  [{ Address := "V1", OperatorAddress := "regen:valoper1", Description := { Moniker := "one" } }]

/-- The configuration of the scenario: window 1 is `[2, 3]` once the caller has added one to
both bounds, with 10 points per block; window 2 is unset (start `0` after the adjustment);
the node rewards are 7. -/
def scenarioCfg : Config :=
  { node_rewards := 7
    el_choco_startblock := 1
    el_choco_endblock := 2
    el_choco_reward_points_per_block := 10
    amazonas_startblock := -1
    amazonas_endblock := -1
    amazonas_reward_points_per_block := 0 }

/-- A rendering of scores used where a concrete one is needed; no property depends on it. -/
def scenarioSprintf : Float64 → String := fun _ => ""

/-- The report of the scenario run over `[1, 5]`: `V1` with uptime count 5, window sums 2
and 0, uptime points 375 and total 2 + 0 + 375 + 7. -/
def scenarioReport : Report :=
  { validatorsList :=
      [{ ValAddress := "V1"
         Info :=
           { OperatorAddr := "regen:valoper1"
             Moniker := "one"
             UptimeCount := 5
             Upgrade1Points := 2
             Upgrade2Points := 0
             UptimePoints := Float64.fin 375
             TotalPoints := Float64.fin 384 } }]
    table := [tableHeader, " regen:valoper1\t one\t  5\t 2 \t0 \t\t7\t"]
    csv := [Header, ["regen:valoper1", "one", "5", "2", "0", "", "7", ""]] }

/-- The report of the scenario run over the one-block range `[5, 5]`: `V1` with uptime
count 1 and both scores `+Inf`. -/
def scenarioReportOneBlock : Report :=
  { validatorsList :=
      [{ ValAddress := "V1"
         Info :=
           { OperatorAddr := "regen:valoper1"
             Moniker := "one"
             UptimeCount := 1
             Upgrade1Points := 0
             Upgrade2Points := 0
             UptimePoints := Float64.posInf
             TotalPoints := Float64.posInf } }]
    table := [tableHeader, " regen:valoper1\t one\t  1\t 0 \t0 \t\t7\t"]
    csv := [Header, ["regen:valoper1", "one", "1", "0", "0", "", "7", ""]] }

/-! ## Properties -/

theorem wrap64_emod (x : Int) : wrap64 x % 2 ^ 64 = x % 2 ^ 64 := by
  unfold wrap64
  omega

theorem wrap64_congr {x y : Int} (h : x % 2 ^ 64 = y % 2 ^ 64) : wrap64 x = wrap64 y := by
  unfold wrap64
  omega

theorem wrap64_of_isInt64 {x : Int} (h : isInt64 x) : wrap64 x = x := by
  unfold isInt64 at h
  unfold wrap64
  omega

theorem wrap64_isInt64 (x : Int) : isInt64 (wrap64 x) := by
  unfold isInt64 wrap64
  omega

theorem wrap64_mul_sub_add (p u e : Int) :
    wrap64 (p * wrap64 (wrap64 (e - u) + 1)) = wrap64 (p * (e - u + 1)) := by
  apply wrap64_congr
  have h1 : wrap64 (wrap64 (e - u) + 1) % 2 ^ 64 = (e - u + 1) % 2 ^ 64 := by
    rw [wrap64_emod, Int.add_emod, wrap64_emod, ← Int.add_emod]
  rw [Int.mul_emod, h1, ← Int.mul_emod]

/-- C1: `CalculateUpgradePoints` returns `0` when the upgrade block is `0`, and otherwise
`pointsPerBlock * (endBlockHeight - upgradeBlock + 1)` in `int64` arithmetic: the 64-bit
reduction of the exact product, which lies in the `int64` range and is the exact product
whenever that fits. For instance it gives `40` on `(10, 2, 5)` and `0` on `(10, 0, 5)`. -/
theorem C1_CalculateUpgradePoints_spec (pointsPerBlock upgradeBlock endBlockHeight : Int) :
    CalculateUpgradePoints pointsPerBlock 0 endBlockHeight = 0 ∧
    CalculateUpgradePoints pointsPerBlock upgradeBlock endBlockHeight =
      (if upgradeBlock = 0 then 0
       else wrap64 (pointsPerBlock * (endBlockHeight - upgradeBlock + 1))) ∧
    isInt64 (CalculateUpgradePoints pointsPerBlock upgradeBlock endBlockHeight) ∧
    (if upgradeBlock ≠ 0 ∧ isInt64 (pointsPerBlock * (endBlockHeight - upgradeBlock + 1)) then
      CalculateUpgradePoints pointsPerBlock upgradeBlock endBlockHeight =
        pointsPerBlock * (endBlockHeight - upgradeBlock + 1)
     else True) ∧
    CalculateUpgradePoints 10 2 5 = 40 ∧
    CalculateUpgradePoints 10 0 5 = 0 := by
  refine ⟨by simp [CalculateUpgradePoints], ?_, ?_, ?_, by decide, by decide⟩
  · unfold CalculateUpgradePoints
    split
    · rfl
    · exact wrap64_mul_sub_add _ _ _
  · unfold CalculateUpgradePoints
    split
    · decide
    · exact wrap64_isInt64 _
  · split
    · rename_i h
      unfold CalculateUpgradePoints
      rw [if_neg h.1]
      show wrap64 _ = _
      rw [wrap64_mul_sub_add, wrap64_of_isInt64 h.2]
    · trivial

/-! ### The grouped fold -/

/-- The keys after `groupStep`: the keys before, and the validator of the document. -/
theorem groupStep_ids_mem (q : AggQuery) (gs : List Group) (d : Unwound) (v : String) :
    v ∈ (groupStep q gs d).map (fun g => g.ID) ↔ v ∈ gs.map (fun g => g.ID) ∨ v = d.Validators := by
  induction gs with
  | nil => simp [groupStep]
  | cons g gs ih =>
    unfold groupStep
    split
    · rename_i h
      simp only [List.map_cons, List.mem_cons]
      constructor
      · intro h1; exact Or.inl h1
      · rintro (h1 | h1)
        · exact h1
        · exact Or.inl (h1.trans h.symm)
    · simp only [List.map_cons, List.mem_cons, ih]
      tauto

theorem groupStep_nodup (q : AggQuery) (gs : List Group) (d : Unwound)
    (h : (gs.map (fun g => g.ID)).Nodup) : ((groupStep q gs d).map (fun g => g.ID)).Nodup := by
  induction gs with
  | nil => simp [groupStep]
  | cons g gs ih =>
    rw [List.map_cons, List.nodup_cons] at h
    unfold groupStep
    split
    · simpa [List.nodup_cons] using h
    · rename_i hne
      rw [List.map_cons, List.nodup_cons]
      refine ⟨?_, ih h.2⟩
      rw [groupStep_ids_mem]
      rintro (h1 | h1)
      · exact h.1 h1
      · exact hne h1

/-- What `groupStep` does to the groups: a group of another validator is kept, and the
group of the validator of the document has one more in `uptime_count` and the `$cond`
value of each window more in its sum (starting from zero when the group is new). -/
theorem groupStep_count (q : AggQuery) (gs : List Group) (d : Unwound)
    (h : (gs.map (fun g => g.ID)).Nodup) (g : Group) (hg : g ∈ groupStep q gs d) :
    (g.ID ≠ d.Validators ∧ g ∈ gs) ∨
    (g.ID = d.Validators ∧
      ((∃ g0 ∈ gs, g0.ID = d.Validators ∧ g.Uptime_count = g0.Uptime_count + 1 ∧
          g.Upgrade1_block =
            g0.Upgrade1_block + condInRange d.Height q.upgrade1Gte q.upgrade1Lte ∧
          g.Upgrade2_block =
            g0.Upgrade2_block + condInRange d.Height q.upgrade2Gte q.upgrade2Lte) ∨
       (d.Validators ∉ gs.map (fun g => g.ID) ∧ g.Uptime_count = 1 ∧
          g.Upgrade1_block = condInRange d.Height q.upgrade1Gte q.upgrade1Lte ∧
          g.Upgrade2_block = condInRange d.Height q.upgrade2Gte q.upgrade2Lte))) := by
  induction gs with
  | nil =>
    simp only [groupStep, List.mem_singleton] at hg
    subst hg
    simp
  | cons g1 gs ih =>
    rw [List.map_cons, List.nodup_cons] at h
    unfold groupStep at hg
    split at hg
    · rename_i heq
      rcases List.mem_cons.1 hg with h1 | h1
      · subst h1
        exact Or.inr ⟨heq, Or.inl ⟨g1, List.mem_cons_self _ _, heq, rfl, rfl, rfl⟩⟩
      · left
        refine ⟨?_, List.mem_cons_of_mem _ h1⟩
        intro h2
        apply h.1
        rw [heq, ← h2]
        exact List.mem_map_of_mem _ h1
    · rename_i hne
      rcases List.mem_cons.1 hg with h1 | h1
      · subst h1
        exact Or.inl ⟨hne, List.mem_cons_self _ _⟩
      · rcases ih h.2 h1 with ⟨h2, h3⟩ | ⟨h2, h3⟩
        · exact Or.inl ⟨h2, List.mem_cons_of_mem _ h3⟩
        · right
          refine ⟨h2, ?_⟩
          rcases h3 with ⟨g0, hg0, h4, h5⟩ | ⟨h4, h5⟩
          · exact Or.inl ⟨g0, List.mem_cons_of_mem _ hg0, h4, h5⟩
          · right
            refine ⟨?_, h5⟩
            simp only [List.map_cons, List.mem_cons, not_or]
            exact ⟨fun h6 => hne h6.symm, h4⟩

/-- The `$cond` value of a window as the count over a single document. -/
theorem countP_singleton_window (v : String) (lo hi : Int) (d : Unwound)
    (hd : d.Validators = v) :
    (([d].countP (fun d => decide (d.Validators = v) &&
        decide (lo ≤ d.Height ∧ d.Height ≤ hi)) : Nat) : Int) = condInRange d.Height lo hi := by
  unfold condInRange
  by_cases h : lo ≤ d.Height ∧ d.Height ≤ hi
  · simp [List.countP_cons, hd, h]
  · simp [List.countP_cons, hd, h]

/-- The invariant of the grouped fold over the documents seen so far: distinct keys, the
keys are the validators seen, and every accumulator is the count of the documents of its
validator (for a window sum, of those with the height in the window). -/
theorem groupStage_inv (q : AggQuery) (docs : List Unwound) :
    ((groupStage q docs).map (fun g => g.ID)).Nodup ∧
    (∀ v, v ∈ (groupStage q docs).map (fun g => g.ID) ↔ v ∈ docs.map (fun d => d.Validators)) ∧
    (∀ g ∈ groupStage q docs,
      g.Uptime_count = (docs.countP (fun d => decide (d.Validators = g.ID)) : Int) ∧
      g.Upgrade1_block = (docs.countP (fun d => decide (d.Validators = g.ID) &&
        decide (q.upgrade1Gte ≤ d.Height ∧ d.Height ≤ q.upgrade1Lte)) : Int) ∧
      g.Upgrade2_block = (docs.countP (fun d => decide (d.Validators = g.ID) &&
        decide (q.upgrade2Gte ≤ d.Height ∧ d.Height ≤ q.upgrade2Lte)) : Int)) := by
  induction docs using List.reverseRecOn with
  | nil => simp [groupStage]
  | append_singleton docs d ih =>
    obtain ⟨ih1, ih2, ih3⟩ := ih
    have hstep : groupStage q (docs ++ [d]) = groupStep q (groupStage q docs) d := by
      simp [groupStage, List.foldl_append]
    rw [hstep]
    refine ⟨groupStep_nodup q _ d ih1, ?_, ?_⟩
    · intro v
      rw [groupStep_ids_mem, ih2]
      simp only [List.map_append, List.mem_append, List.map_cons, List.map_nil,
        List.mem_singleton]
    · intro g hg
      simp only [List.countP_append, Nat.cast_add]
      rcases groupStep_count q _ d ih1 g hg with ⟨h1, h2⟩ | ⟨h1, h2⟩
      · obtain ⟨i1, i2, i3⟩ := ih3 g h2
        have hd : decide (d.Validators = g.ID) = false := by
          simp only [decide_eq_false_iff_not]; exact fun h => h1 h.symm
        refine ⟨?_, ?_, ?_⟩
        · rw [i1]; simp [List.countP_cons, hd]
        · rw [i2]; simp [List.countP_cons, hd]
        · rw [i3]; simp [List.countP_cons, hd]
      · have hd : decide (d.Validators = g.ID) = true := by simp [h1]
        rw [countP_singleton_window g.ID _ _ d h1.symm,
          countP_singleton_window g.ID _ _ d h1.symm]
        rcases h2 with ⟨g0, hg0, h3, h4, h5, h6⟩ | ⟨h3, h4, h5, h6⟩
        · obtain ⟨i1, i2, i3⟩ := ih3 g0 hg0
          have hid : g0.ID = g.ID := h3.trans h1.symm
          rw [hid] at i1 i2 i3
          refine ⟨?_, ?_, ?_⟩
          · rw [h4, i1]; simp [List.countP_cons, hd]
          · rw [h5, i2]
          · rw [h6, i3]
        · have hz : ∀ p : Unwound → Bool,
              docs.countP (fun d => decide (d.Validators = g.ID) && p d) = 0 := by
            intro p
            rw [List.countP_eq_zero]
            intro d1 hd1
            simp only [Bool.and_eq_true, decide_eq_true_eq, not_and]
            intro h7
            exfalso
            apply h3
            rw [ih2, ← h1, ← h7]
            exact List.mem_map_of_mem _ hd1
          have hz0 : docs.countP (fun d => decide (d.Validators = g.ID)) = 0 := by
            have := hz (fun _ => true)
            simpa using this
          refine ⟨?_, ?_, ?_⟩
          · rw [h4, hz0]; simp [List.countP_cons, hd]
          · rw [h5, hz]; simp
          · rw [h6, hz]; simp

/-! ### The filter and the flattening -/

theorem mem_unwindStage (bs : List Blocks) (v : String) :
    v ∈ (unwindStage bs).map (fun d => d.Validators) ↔ ∃ b ∈ bs, v ∈ b.Validators := by
  simp only [unwindStage, List.mem_map, List.mem_flatMap]
  constructor
  · rintro ⟨d, ⟨b, hb, v1, hv1, rfl⟩, rfl⟩
    exact ⟨b, hb, hv1⟩
  · rintro ⟨b, hb, hv⟩
    exact ⟨_, ⟨b, hb, v, hv, rfl⟩, rfl⟩

theorem countP_unwindStage (bs : List Blocks) (v : String)
    (h : ∀ b ∈ bs, b.Validators.Nodup) :
    (unwindStage bs).countP (fun d => decide (d.Validators = v)) =
      bs.countP (fun b => decide (v ∈ b.Validators)) := by
  induction bs with
  | nil => simp [unwindStage]
  | cons b bs ih =>
    have hb : b.Validators.Nodup := h b (List.mem_cons_self _ _)
    have ih1 := ih (fun b1 hb1 => h b1 (List.mem_cons_of_mem _ hb1))
    have hcons : unwindStage (b :: bs) =
        b.Validators.map (fun v => ({ Height := b.Height, Validators := v } : Unwound)) ++
          unwindStage bs := by
      simp [unwindStage]
    rw [hcons, List.countP_append, ih1, List.countP_cons, List.countP_map]
    have hc : List.countP ((fun d : Unwound => decide (d.Validators = v)) ∘
        fun v => ({ Height := b.Height, Validators := v } : Unwound)) b.Validators =
        List.count v b.Validators := by
      rw [List.count, List.countP_congr]
      intro x _
      simp only [Function.comp, beq_iff_eq, decide_eq_true_eq]
    rw [hc]
    by_cases hv : v ∈ b.Validators
    · rw [List.count_eq_one_of_mem hb hv]
      simp only [hv, decide_True, if_true]
      omega
    · rw [List.count_eq_zero_of_not_mem hv]
      simp [hv]

theorem mem_matchStage (q : AggQuery) (blocks : List Blocks) (b : Blocks) :
    b ∈ matchStage q blocks ↔ b ∈ blocks ∧ q.matchGte ≤ b.Height ∧ b.Height ≤ q.matchLte := by
  simp [matchStage, List.mem_filter]

theorem countP_matchStage (q : AggQuery) (blocks : List Blocks) (v : String) :
    (matchStage q blocks).countP (fun b => decide (v ∈ b.Validators)) =
      blocks.countP (fun b =>
        decide (q.matchGte ≤ b.Height ∧ b.Height ≤ q.matchLte ∧ v ∈ b.Validators)) := by
  rw [matchStage, List.countP_filter]
  apply List.countP_congr
  intro b _
  simp [and_assoc, and_comm, and_left_comm]

theorem countP_unwindStage_height (bs : List Blocks) (v : String) (p : Int → Bool)
    (h : ∀ b ∈ bs, b.Validators.Nodup) :
    (unwindStage bs).countP (fun d => decide (d.Validators = v) && p d.Height) =
      bs.countP (fun b => decide (v ∈ b.Validators) && p b.Height) := by
  induction bs with
  | nil => simp [unwindStage]
  | cons b bs ih =>
    have hb : b.Validators.Nodup := h b (List.mem_cons_self _ _)
    have ih1 := ih (fun b1 hb1 => h b1 (List.mem_cons_of_mem _ hb1))
    have hcons : unwindStage (b :: bs) =
        b.Validators.map (fun v => ({ Height := b.Height, Validators := v } : Unwound)) ++
          unwindStage bs := by
      simp [unwindStage]
    rw [hcons, List.countP_append, ih1, List.countP_cons, List.countP_map]
    cases hp : p b.Height with
    | false =>
      have hc : List.countP ((fun d : Unwound => decide (d.Validators = v) && p d.Height) ∘
          fun v => ({ Height := b.Height, Validators := v } : Unwound)) b.Validators = 0 := by
        rw [List.countP_eq_zero]
        intro x _
        simp only [Function.comp, hp, Bool.and_false]
        exact Bool.false_ne_true
      rw [hc]
      simp
    | true =>
      have hc : List.countP ((fun d : Unwound => decide (d.Validators = v) && p d.Height) ∘
          fun v => ({ Height := b.Height, Validators := v } : Unwound)) b.Validators =
          List.count v b.Validators := by
        rw [List.count, List.countP_congr]
        intro x _
        simp only [Function.comp, hp, Bool.and_true, beq_iff_eq, decide_eq_true_eq]
      rw [hc]
      by_cases hv : v ∈ b.Validators
      · rw [List.count_eq_one_of_mem hb hv]
        simp only [hv, decide_True, Bool.and_true, if_true]
        omega
      · rw [List.count_eq_zero_of_not_mem hv]
        simp [hv]

/-- The window sums of the `$group` stage, read on the blocks: `upgrade1_block` of a group
is the number of blocks of the requested range, with the height in window 1, that contain
the key of the group; likewise `upgrade2_block` and window 2. -/
theorem aggregateGroups_window_sums (blocks : List Blocks) (q : AggQuery)
    (hnodup : ∀ b ∈ blocks, b.Validators.Nodup) :
    ∀ g ∈ aggregateGroups q blocks,
      g.Upgrade1_block = (blocks.countP (fun b =>
        decide ((q.matchGte ≤ b.Height ∧ b.Height ≤ q.matchLte) ∧
          (q.upgrade1Gte ≤ b.Height ∧ b.Height ≤ q.upgrade1Lte) ∧ g.ID ∈ b.Validators)) : Int) ∧
      g.Upgrade2_block = (blocks.countP (fun b =>
        decide ((q.matchGte ≤ b.Height ∧ b.Height ≤ q.matchLte) ∧
          (q.upgrade2Gte ≤ b.Height ∧ b.Height ≤ q.upgrade2Lte) ∧ g.ID ∈ b.Validators)) : Int) := by
  intro g hg
  obtain ⟨_, _, h3⟩ := groupStage_inv q (unwindStage (matchStage q blocks))
  obtain ⟨_, i2, i3⟩ := h3 g hg
  have hn : ∀ b ∈ matchStage q blocks, b.Validators.Nodup :=
    fun b hb => hnodup b ((mem_matchStage q blocks b).1 hb).1
  rw [i2, i3]
  rw [countP_unwindStage_height _ g.ID
      (fun h => decide (q.upgrade1Gte ≤ h ∧ h ≤ q.upgrade1Lte)) hn,
    countP_unwindStage_height _ g.ID
      (fun h => decide (q.upgrade2Gte ≤ h ∧ h ≤ q.upgrade2Lte)) hn]
  simp only [matchStage, List.countP_filter]
  constructor
  · congr 1
    apply List.countP_congr
    intro b _
    simp only [Bool.and_eq_true, decide_eq_true_eq]
    tauto
  · congr 1
    apply List.countP_congr
    intro b _
    simp only [Bool.and_eq_true, decide_eq_true_eq]
    tauto

/-! ### The aggregation claims -/

/-- C7: under the fold reading of `$match`, `$unwind` and `$group`, for blocks with
duplicate-free participant lists and `startBlock ≤ endBlock`, the groups have pairwise
distinct keys, the keys are exactly the validators appearing in some block of
`[startBlock, endBlock]`, the `uptime_count` of a group is the number of such blocks that
contain its key, and a validator that appears only outside the range has no group. -/
theorem C7_aggregate_groups (blocks : List Blocks)
    (startBlock endBlock elChocoStartBlock elChocoEndBlock amazonasStartBlock
      amazonasEndBlock : Int)
    (hnodup : ∀ b ∈ blocks, b.Validators.Nodup) (hrange : startBlock ≤ endBlock) :
    ((aggregateGroups (GenerateAggregateQuery startBlock endBlock elChocoStartBlock
        elChocoEndBlock amazonasStartBlock amazonasEndBlock) blocks).map
          (fun g => g.ID)).Nodup ∧
    (∀ v, v ∈ (aggregateGroups (GenerateAggregateQuery startBlock endBlock elChocoStartBlock
        elChocoEndBlock amazonasStartBlock amazonasEndBlock) blocks).map (fun g => g.ID) ↔
      ∃ b ∈ blocks, startBlock ≤ b.Height ∧ b.Height ≤ endBlock ∧ v ∈ b.Validators) ∧
    (∀ g ∈ aggregateGroups (GenerateAggregateQuery startBlock endBlock elChocoStartBlock
        elChocoEndBlock amazonasStartBlock amazonasEndBlock) blocks,
      g.Uptime_count = (blocks.countP (fun b =>
        decide (startBlock ≤ b.Height ∧ b.Height ≤ endBlock ∧ g.ID ∈ b.Validators)) : Int)) ∧
    (∀ v, (∀ b ∈ blocks, v ∈ b.Validators → ¬ (startBlock ≤ b.Height ∧ b.Height ≤ endBlock)) →
      ∀ g ∈ aggregateGroups (GenerateAggregateQuery startBlock endBlock elChocoStartBlock
        elChocoEndBlock amazonasStartBlock amazonasEndBlock) blocks, g.ID ≠ v) := by
  have _ := hrange
  generalize hq : GenerateAggregateQuery startBlock endBlock elChocoStartBlock
    elChocoEndBlock amazonasStartBlock amazonasEndBlock = q
  have hgte : q.matchGte = startBlock := by rw [← hq]; rfl
  have hlte : q.matchLte = endBlock := by rw [← hq]; rfl
  obtain ⟨h1, h2, h3⟩ := groupStage_inv q (unwindStage (matchStage q blocks))
  have hkeys : ∀ v, v ∈ (aggregateGroups q blocks).map (fun g => g.ID) ↔
      ∃ b ∈ blocks, startBlock ≤ b.Height ∧ b.Height ≤ endBlock ∧ v ∈ b.Validators := by
    intro v
    unfold aggregateGroups
    rw [h2, mem_unwindStage]
    constructor
    · rintro ⟨b, hb, hv⟩
      rw [mem_matchStage, hgte, hlte] at hb
      exact ⟨b, hb.1, hb.2.1, hb.2.2, hv⟩
    · rintro ⟨b, hb, hs, he, hv⟩
      refine ⟨b, ?_, hv⟩
      rw [mem_matchStage, hgte, hlte]
      exact ⟨hb, hs, he⟩
  refine ⟨h1, hkeys, ?_, ?_⟩
  · intro g hg
    rw [(h3 g hg).1, countP_unwindStage, countP_matchStage, hgte, hlte]
    intro b hb
    exact hnodup b ((mem_matchStage q blocks b).1 hb).1
  · intro v hv g hg hgv
    have hmem : v ∈ (aggregateGroups q blocks).map (fun g => g.ID) := by
      rw [← hgv]
      exact List.mem_map_of_mem _ hg
    obtain ⟨b, hb, hs, he, hvb⟩ := (hkeys v).1 hmem
    exact hv b hb hvb ⟨hs, he⟩

/-- C7 instantiated at `sampleBlocks` and the range `[1, 5]`. -/
theorem C7_aggregate_groups_witness :
    (∀ b ∈ sampleBlocks, b.Validators.Nodup) ∧ (1 : Int) ≤ 5 ∧
    ((aggregateGroups (GenerateAggregateQuery 1 5 2 3 0 0) sampleBlocks).map
      (fun g => g.ID)).Nodup ∧
    (∀ v, v ∈ (aggregateGroups (GenerateAggregateQuery 1 5 2 3 0 0) sampleBlocks).map
        (fun g => g.ID) ↔
      ∃ b ∈ sampleBlocks, (1 : Int) ≤ b.Height ∧ b.Height ≤ 5 ∧ v ∈ b.Validators) ∧
    (∀ g ∈ aggregateGroups (GenerateAggregateQuery 1 5 2 3 0 0) sampleBlocks,
      g.Uptime_count = (sampleBlocks.countP (fun b =>
        decide ((1 : Int) ≤ b.Height ∧ b.Height ≤ 5 ∧ g.ID ∈ b.Validators)) : Int)) ∧
    (∀ v, (∀ b ∈ sampleBlocks, v ∈ b.Validators → ¬ ((1 : Int) ≤ b.Height ∧ b.Height ≤ 5)) →
      ∀ g ∈ aggregateGroups (GenerateAggregateQuery 1 5 2 3 0 0) sampleBlocks, g.ID ≠ v) :=
  ⟨by decide, by decide, C7_aggregate_groups sampleBlocks 1 5 2 3 0 0 (by decide) (by decide)⟩

theorem groupStep_windows (q : AggQuery) (gs : List Group) (d : Unwound)
    (hd : ¬ ((q.upgrade1Gte ≤ d.Height ∧ d.Height ≤ q.upgrade1Lte) ∧
      (q.upgrade2Gte ≤ d.Height ∧ d.Height ≤ q.upgrade2Lte)))
    (h : ∀ g ∈ gs, g.Upgrade1_block + g.Upgrade2_block ≤ g.Uptime_count) :
    ∀ g ∈ groupStep q gs d, g.Upgrade1_block + g.Upgrade2_block ≤ g.Uptime_count := by
  have hcond : condInRange d.Height q.upgrade1Gte q.upgrade1Lte +
      condInRange d.Height q.upgrade2Gte q.upgrade2Lte ≤ 1 := by
    unfold condInRange
    split <;> split <;> omega
  induction gs with
  | nil =>
    intro g hg
    simp only [groupStep, List.mem_singleton] at hg
    subst hg
    exact hcond
  | cons g1 gs ih =>
    intro g hg
    have h1 := h g1 (List.mem_cons_self _ _)
    unfold groupStep at hg
    split at hg
    · rcases List.mem_cons.1 hg with h2 | h2
      · subst h2
        show g1.Upgrade1_block + _ + (g1.Upgrade2_block + _) ≤ g1.Uptime_count + 1
        omega
      · exact h g (List.mem_cons_of_mem _ h2)
    · rcases List.mem_cons.1 hg with h2 | h2
      · subst h2
        exact h1
      · exact ih (fun g0 hg0 => h g0 (List.mem_cons_of_mem _ hg0)) g h2

theorem foldl_groupStep_windows (q : AggQuery) (docs : List Unwound)
    (hd : ∀ d ∈ docs, ¬ ((q.upgrade1Gte ≤ d.Height ∧ d.Height ≤ q.upgrade1Lte) ∧
      (q.upgrade2Gte ≤ d.Height ∧ d.Height ≤ q.upgrade2Lte)))
    (acc : List Group)
    (h : ∀ g ∈ acc, g.Upgrade1_block + g.Upgrade2_block ≤ g.Uptime_count) :
    ∀ g ∈ docs.foldl (groupStep q) acc,
      g.Upgrade1_block + g.Upgrade2_block ≤ g.Uptime_count := by
  induction docs generalizing acc with
  | nil => simpa using h
  | cons d docs ih =>
    rw [List.foldl_cons]
    apply ih (fun d1 hd1 => hd d1 (List.mem_cons_of_mem _ hd1))
    exact groupStep_windows q acc d (hd d (List.mem_cons_self _ _)) h

/-- C8: under the fold reading of `$group`, when no height lies in both window ranges and
both ranges lie inside `[startBlock, endBlock]`, every group has
`upgrade1_block + upgrade2_block ≤ uptime_count`; with overlapping windows a height in both
ranges adds to both sums, and the total can exceed `uptime_count` (one block at height 2,
windows `[2, 3]` and `[2, 4]`: sums 1 and 1, `uptime_count` 1). -/
theorem C8_window_counts_le_uptime (blocks : List Blocks)
    (startBlock endBlock elChocoStartBlock elChocoEndBlock amazonasStartBlock
      amazonasEndBlock : Int)
    (hdisjoint : ∀ h : Int, ¬ ((elChocoStartBlock ≤ h ∧ h ≤ elChocoEndBlock) ∧
      (amazonasStartBlock ≤ h ∧ h ≤ amazonasEndBlock)))
    (hsub1 : ∀ h : Int, elChocoStartBlock ≤ h ∧ h ≤ elChocoEndBlock →
      startBlock ≤ h ∧ h ≤ endBlock)
    (hsub2 : ∀ h : Int, amazonasStartBlock ≤ h ∧ h ≤ amazonasEndBlock →
      startBlock ≤ h ∧ h ≤ endBlock) :
    (∀ g ∈ aggregateGroups (GenerateAggregateQuery startBlock endBlock elChocoStartBlock
        elChocoEndBlock amazonasStartBlock amazonasEndBlock) blocks,
      g.Upgrade1_block + g.Upgrade2_block ≤ g.Uptime_count) ∧
    aggregateGroups (GenerateAggregateQuery 1 5 2 3 2 4)
        [{ ID := "b2", Height := 2, Validators := ["V1"] }] =
      [{ ID := "V1", Uptime_count := 1, Upgrade1_block := 1, Upgrade2_block := 1 }] := by
  have _ := hsub1
  have _ := hsub2
  refine ⟨?_, by decide⟩
  unfold aggregateGroups groupStage
  apply foldl_groupStep_windows
  · intro d _
    exact hdisjoint d.Height
  · intro g hg
    cases hg

/-- C8 instantiated at `sampleBlocks`, the range `[1, 5]` and the windows `[2, 3]` and
`[4, 5]`. -/
theorem C8_window_counts_le_uptime_witness :
    (∀ h : Int, ¬ (((2 : Int) ≤ h ∧ h ≤ 3) ∧ ((4 : Int) ≤ h ∧ h ≤ 5))) ∧
    (∀ h : Int, (2 : Int) ≤ h ∧ h ≤ 3 → (1 : Int) ≤ h ∧ h ≤ 5) ∧
    (∀ h : Int, (4 : Int) ≤ h ∧ h ≤ 5 → (1 : Int) ≤ h ∧ h ≤ 5) ∧
    (∀ g ∈ aggregateGroups (GenerateAggregateQuery 1 5 2 3 4 5) sampleBlocks,
      g.Upgrade1_block + g.Upgrade2_block ≤ g.Uptime_count) ∧
    aggregateGroups (GenerateAggregateQuery 1 5 2 3 2 4)
        [{ ID := "b2", Height := 2, Validators := ["V1"] }] =
      [{ ID := "V1", Uptime_count := 1, Upgrade1_block := 1, Upgrade2_block := 1 }] :=
  ⟨fun h => by omega, fun h => by omega, fun h => by omega,
    C8_window_counts_le_uptime sampleBlocks 1 5 2 3 4 5 (fun h => by omega) (fun h => by omega)
      (fun h => by omega)⟩

/-! ### The row-building loop -/

theorem buildValInfo_nil (obj : ValAggregateResult) (h : obj.Validator_details = []) :
    buildValInfo obj = .error indexPanic := by
  simp [buildValInfo, h, index0, bind, Except.bind]

theorem buildValInfo_cons (obj : ValAggregateResult) (d : ValidatorDetails)
    (ds : List ValidatorDetails) (h : obj.Validator_details = d :: ds) :
    buildValInfo obj = .ok
      { ValAddress := d.Address
        Info :=
          { OperatorAddr := d.Operator_address
            Moniker := d.Description.Moniker
            UptimeCount := obj.Uptime_count
            Upgrade1Points := obj.Upgrade1_block
            Upgrade2Points := obj.Upgrade2_block
            UptimePoints := Float64.fin 0
            TotalPoints := Float64.fin 0 } } := by
  simp [buildValInfo, h, index0, bind, Except.bind, pure, Except.pure]

/-- A successful run of the loop maps every result to one record, in order: any field of
the records that `buildValInfo` copies from the result agrees along the two lists. -/
theorem buildValidatorsList_map {β : Type} (f : ValidatorInfo → β) (g : ValAggregateResult → β)
    (hfg : ∀ obj v, buildValInfo obj = .ok v → f v = g obj)
    (results : List ValAggregateResult) (acc l : List ValidatorInfo)
    (h : buildValidatorsList results acc = .ok l) :
    l.map f = acc.map f ++ results.map g := by
  induction results generalizing acc with
  | nil =>
    simp only [buildValidatorsList, Except.ok.injEq] at h
    simp [h]
  | cons obj rest ih =>
    unfold buildValidatorsList at h
    split at h
    · cases h
    · rename_i v hv
      rw [ih _ h]
      simp [hfg obj v hv]

theorem buildValidatorsList_ok (results : List ValAggregateResult) (acc : List ValidatorInfo)
    (h : ∀ r ∈ results, r.Validator_details ≠ []) :
    ∃ l, buildValidatorsList results acc = .ok l := by
  induction results generalizing acc with
  | nil => exact ⟨acc, rfl⟩
  | cons obj rest ih =>
    have hobj := h obj (List.mem_cons_self _ _)
    obtain ⟨d, ds, hd⟩ := List.exists_cons_of_ne_nil hobj
    unfold buildValidatorsList
    rw [buildValInfo_cons obj d ds hd]
    exact ih _ (fun r hr => h r (List.mem_cons_of_mem _ hr))

theorem buildValidatorsList_error (results : List ValAggregateResult)
    (acc : List ValidatorInfo) (h : ∃ r ∈ results, r.Validator_details = []) :
    buildValidatorsList results acc = .error indexPanic := by
  induction results generalizing acc with
  | nil => simp at h
  | cons obj rest ih =>
    unfold buildValidatorsList
    by_cases hobj : obj.Validator_details = []
    · rw [buildValInfo_nil obj hobj]
    · obtain ⟨d, ds, hd⟩ := List.exists_cons_of_ne_nil hobj
      rw [buildValInfo_cons obj d ds hd]
      apply ih
      obtain ⟨r, hr, hr0⟩ := h
      rcases List.mem_cons.1 hr with h1 | h1
      · exact absurd (h1 ▸ hr0) hobj
      · exact ⟨r, h1, hr0⟩

/-- A run whose row-building loop succeeds returns the scored records and their rows. -/
theorem CalculateUptime_of_build (cfg : Config)
    (db : AggQuery → List ValAggregateResult) (sprintf : Float64 → String)
    (startBlock endBlock : Int) (l : List ValidatorInfo)
    (h : buildValidatorsList (db (uptimeQuery cfg startBlock endBlock)) [] = .ok l) :
    CalculateUptime cfg db sprintf startBlock endBlock = .ok
      { validatorsList := l.map (scoreValidator cfg.node_rewards startBlock endBlock)
        table := tableHeader ::
          (l.map (scoreValidator cfg.node_rewards startBlock endBlock)).map
            (tableLine sprintf cfg.node_rewards)
        csv := ExportToCsv sprintf
          (l.map (scoreValidator cfg.node_rewards startBlock endBlock)) cfg.node_rewards } := by
  simp only [uptimeQuery] at h
  simp only [CalculateUptime, h]

theorem CalculateUptime_ok_inv (cfg : Config)
    (db : AggQuery → List ValAggregateResult) (sprintf : Float64 → String)
    (startBlock endBlock : Int) (report : Report)
    (h : CalculateUptime cfg db sprintf startBlock endBlock = .ok report) :
    ∃ l, buildValidatorsList (db (uptimeQuery cfg startBlock endBlock)) [] = .ok l ∧
      report.validatorsList = l.map (scoreValidator cfg.node_rewards startBlock endBlock) := by
  simp only [CalculateUptime] at h
  simp only [uptimeQuery]
  split at h
  · cases h
  · rename_i l hl
    refine ⟨l, hl, ?_⟩
    cases h
    rfl

theorem uptimePointsOf_of_ne (c startBlock endBlock : Int) (h : startBlock ≠ endBlock) :
    uptimePointsOf c startBlock endBlock =
      Float64.fin ((c : ℚ) / ((endBlock : ℚ) - (startBlock : ℚ)) * 300) := by
  have hne : (endBlock : ℚ) + -(startBlock : ℚ) ≠ 0 := by
    intro h0
    apply h
    have : (startBlock : ℚ) = endBlock := by linarith
    exact_mod_cast this
  simp [uptimePointsOf, Float64.div, Float64.sub, Float64.add, Float64.neg, Float64.mul,
    Float64.ofInt64, hne, sub_eq_add_neg]

theorem uptimePointsOf_self (c startBlock : Int) :
    uptimePointsOf c startBlock startBlock =
      (if c = 0 then Float64.nan else if 0 < c then Float64.posInf else Float64.negInf) := by
  simp only [uptimePointsOf, Float64.div, Float64.sub, Float64.add, Float64.neg, Float64.mul,
    Float64.ofInt64, add_neg_cancel, if_true, Int.cast_eq_zero]
  by_cases h0 : c = 0
  · simp [h0, Float64.mul]
  · by_cases hpos : 0 < c
    · have : (0 : ℚ) ≤ c := by exact_mod_cast hpos.le
      simp [h0, hpos, Float64.infOfSign, this, Float64.mul]
    · have : ¬ (0 : ℚ) ≤ c := by
        intro h1
        have : (0 : Int) ≤ c := by exact_mod_cast h1
        omega
      simp [h0, hpos, Float64.infOfSign, this, Float64.mul]

/-- A result without metadata ends the run with the index panic, whatever the other
results are. -/
theorem CalculateUptime_error_of_empty_details (cfg : Config)
    (db : AggQuery → List ValAggregateResult) (sprintf : Float64 → String)
    (startBlock endBlock : Int)
    (h : ∃ r ∈ db (uptimeQuery cfg startBlock endBlock), r.Validator_details = []) :
    CalculateUptime cfg db sprintf startBlock endBlock = .error indexPanic := by
  have hb := buildValidatorsList_error _ [] h
  simp only [uptimeQuery] at hb
  simp only [CalculateUptime, hb]

/-! ### The scenario -/

/-- The records the row-building loop makes in the scenario over `[1, 5]`. -/
theorem scenario_build :
    buildValidatorsList
      (runAggregate scenarioBlocks scenarioValidators (uptimeQuery scenarioCfg 1 5)) [] =
    .ok [{ ValAddress := "V1"
           Info :=
             { OperatorAddr := "regen:valoper1"
               Moniker := "one"
               UptimeCount := 5
               Upgrade1Points := 2
               Upgrade2Points := 0
               UptimePoints := Float64.fin 0
               TotalPoints := Float64.fin 0 } }] := by
  rfl

/-- The records the row-building loop makes in the scenario over `[5, 5]`. -/
theorem scenario_build_one_block :
    buildValidatorsList
      (runAggregate scenarioBlocks scenarioValidators (uptimeQuery scenarioCfg 5 5)) [] =
    .ok [{ ValAddress := "V1"
           Info :=
             { OperatorAddr := "regen:valoper1"
               Moniker := "one"
               UptimeCount := 1
               Upgrade1Points := 0
               Upgrade2Points := 0
               UptimePoints := Float64.fin 0
               TotalPoints := Float64.fin 0 } }] := by
  rfl

/-- The scenario run over `[1, 5]` returns `scenarioReport`. -/
theorem scenario_run :
    CalculateUptime scenarioCfg (runAggregate scenarioBlocks scenarioValidators)
      scenarioSprintf 1 5 = .ok scenarioReport := by
  rw [CalculateUptime_of_build _ _ _ _ _ _ scenario_build]
  have hs : scoreValidator scenarioCfg.node_rewards 1 5
      { ValAddress := "V1"
        Info :=
          { OperatorAddr := "regen:valoper1"
            Moniker := "one"
            UptimeCount := 5
            Upgrade1Points := 2
            Upgrade2Points := 0
            UptimePoints := Float64.fin 0
            TotalPoints := Float64.fin 0 } } =
      { ValAddress := "V1"
        Info :=
          { OperatorAddr := "regen:valoper1"
            Moniker := "one"
            UptimeCount := 5
            Upgrade1Points := 2
            Upgrade2Points := 0
            UptimePoints := Float64.fin 375
            TotalPoints := Float64.fin 384 } } := by
    simp only [scoreValidator, uptimePointsOf_of_ne 5 1 5 (by decide), Float64.add,
      Float64.ofInt64, scenarioCfg]
    norm_num
  simp only [List.map_cons, List.map_nil, hs]
  rfl

/-- The scenario run over `[5, 5]` returns `scenarioReportOneBlock`. -/
theorem scenario_run_one_block :
    CalculateUptime scenarioCfg (runAggregate scenarioBlocks scenarioValidators)
      scenarioSprintf 5 5 = .ok scenarioReportOneBlock := by
  rw [CalculateUptime_of_build _ _ _ _ _ _ scenario_build_one_block]
  have hs : scoreValidator scenarioCfg.node_rewards 5 5
      { ValAddress := "V1"
        Info :=
          { OperatorAddr := "regen:valoper1"
            Moniker := "one"
            UptimeCount := 1
            Upgrade1Points := 0
            Upgrade2Points := 0
            UptimePoints := Float64.fin 0
            TotalPoints := Float64.fin 0 } } =
      { ValAddress := "V1"
        Info :=
          { OperatorAddr := "regen:valoper1"
            Moniker := "one"
            UptimeCount := 1
            Upgrade1Points := 0
            Upgrade2Points := 0
            UptimePoints := Float64.posInf
            TotalPoints := Float64.posInf } } := by
    simp [scoreValidator, uptimePointsOf_self, Float64.add, Float64.ofInt64]
  simp only [List.map_cons, List.map_nil, hs]
  rfl

/-! ### The scoring claims -/

/-- The fields `buildValInfo` copies from a result. -/
theorem buildValInfo_fields (obj : ValAggregateResult) (v : ValidatorInfo)
    (h : buildValInfo obj = .ok v) :
    v.Info.UptimeCount = obj.Uptime_count ∧ v.Info.Upgrade1Points = obj.Upgrade1_block ∧
      v.Info.Upgrade2Points = obj.Upgrade2_block := by
  cases hd : obj.Validator_details with
  | nil =>
    rw [buildValInfo_nil obj hd] at h
    cases h
  | cons d ds =>
    rw [buildValInfo_cons obj d ds hd] at h
    cases h
    exact ⟨rfl, rfl, rfl⟩

/-- In every report `CalculateUptime` returns, the window-1 points and the window-2 points
of the rows are, row by row, the sums `upgrade1_block` and `upgrade2_block` of the
aggregate results. -/
theorem upgrade_points_of_report (cfg : Config)
    (db : AggQuery → List ValAggregateResult) (sprintf : Float64 → String)
    (startBlock endBlock : Int) (report : Report)
    (h : CalculateUptime cfg db sprintf startBlock endBlock = .ok report) :
    report.validatorsList.map (fun v => v.Info.Upgrade1Points) =
      (db (uptimeQuery cfg startBlock endBlock)).map (fun r => r.Upgrade1_block) ∧
    report.validatorsList.map (fun v => v.Info.Upgrade2Points) =
      (db (uptimeQuery cfg startBlock endBlock)).map (fun r => r.Upgrade2_block) := by
  obtain ⟨l, hl, hrep⟩ := CalculateUptime_ok_inv cfg db sprintf startBlock endBlock report h
  have h1 := buildValidatorsList_map (fun v => v.Info.Upgrade1Points)
    (fun r => r.Upgrade1_block) (fun obj v hv => (buildValInfo_fields obj v hv).2.1) _ _ _ hl
  have h2 := buildValidatorsList_map (fun v => v.Info.Upgrade2Points)
    (fun r => r.Upgrade2_block) (fun obj v hv => (buildValInfo_fields obj v hv).2.2) _ _ _ hl
  rw [hrep, List.map_map, List.map_map]
  exact ⟨h1, h2⟩

/-- C2, at the failing input: in the scenario (blocks 1 to 5 all signed by `V1`, window 1
equal to `[2, 3]` with 10 points per block, window 2 unset, end block 5) the row of `V1`
has window-1 points 2, the `upgrade1_block` sum of its aggregate result, where the claim
has the value of `CalculateUpgradePoints` on the window configuration, 40; the points
per block of the configuration do not reach the row. -/
theorem C2_scenario_upgrade_points :
    (runAggregate scenarioBlocks scenarioValidators (uptimeQuery scenarioCfg 1 5)).map
      (fun r => (r.Upgrade1_block, r.Upgrade2_block)) = [(2, 0)] ∧
    (CalculateUptime scenarioCfg (runAggregate scenarioBlocks scenarioValidators)
        scenarioSprintf 1 5).map
      (fun report => report.validatorsList.map
        (fun v => (v.Info.Upgrade1Points, v.Info.Upgrade2Points))) = .ok [(2, 0)] ∧
    CalculateUpgradePoints scenarioCfg.el_choco_reward_points_per_block
      (wrap64 (scenarioCfg.el_choco_startblock + 1)) 5 = 40 ∧
    CalculateUpgradePoints scenarioCfg.amazonas_reward_points_per_block
      (wrap64 (scenarioCfg.amazonas_startblock + 1)) 5 = 0 := by
  refine ⟨by rfl, ?_, by decide, by decide⟩
  rw [scenario_run]
  rfl

/-- C3: for `startBlock ≠ endBlock` the scoring loop sets the uptime points of a record
with uptime count `c` to `(c / (endBlock - startBlock)) * 300` in exact rational
arithmetic, the denominator being `endBlock - startBlock`: so for the body of the loop,
for every row of a report in terms of its own count, and row by row in terms of the
aggregate results; `c = 5` over `[1, 5]` gives 375. -/
theorem C3_uptime_points_formula (cfg : Config)
    (db : AggQuery → List ValAggregateResult) (sprintf : Float64 → String)
    (startBlock endBlock : Int) (report : Report) (hne : startBlock ≠ endBlock)
    (h : CalculateUptime cfg db sprintf startBlock endBlock = .ok report) :
    (∀ (nodeRewards : Int) (v : ValidatorInfo),
      (scoreValidator nodeRewards startBlock endBlock v).Info.UptimePoints =
        Float64.fin ((v.Info.UptimeCount : ℚ) / ((endBlock : ℚ) - (startBlock : ℚ)) * 300)) ∧
    (∀ v ∈ report.validatorsList,
      v.Info.UptimePoints =
        Float64.fin ((v.Info.UptimeCount : ℚ) / ((endBlock : ℚ) - (startBlock : ℚ)) * 300)) ∧
    report.validatorsList.map (fun v => v.Info.UptimePoints) =
      (db (uptimeQuery cfg startBlock endBlock)).map (fun r =>
        Float64.fin ((r.Uptime_count : ℚ) / ((endBlock : ℚ) - (startBlock : ℚ)) * 300)) ∧
    uptimePointsOf 5 1 5 = Float64.fin 375 := by
  obtain ⟨l, hl, hrep⟩ := CalculateUptime_ok_inv cfg db sprintf startBlock endBlock report h
  have hbody : ∀ (nodeRewards : Int) (v : ValidatorInfo),
      (scoreValidator nodeRewards startBlock endBlock v).Info.UptimePoints =
        Float64.fin ((v.Info.UptimeCount : ℚ) / ((endBlock : ℚ) - (startBlock : ℚ)) * 300) := by
    intro nodeRewards v
    simp only [scoreValidator]
    exact uptimePointsOf_of_ne _ _ _ hne
  refine ⟨hbody, ?_, ?_, ?_⟩
  · intro v hv
    rw [hrep] at hv
    obtain ⟨v0, _, rfl⟩ := List.mem_map.1 hv
    rw [hbody]
    rfl
  · have h1 := buildValidatorsList_map
      (fun v => Float64.fin ((v.Info.UptimeCount : ℚ) / ((endBlock : ℚ) - (startBlock : ℚ)) * 300))
      (fun r => Float64.fin ((r.Uptime_count : ℚ) / ((endBlock : ℚ) - (startBlock : ℚ)) * 300))
      (fun obj v hv => by simp only [(buildValInfo_fields obj v hv).1]) _ _ _ hl
    rw [List.map_nil, List.nil_append] at h1
    rw [hrep, List.map_map, ← h1]
    apply List.map_congr_left
    intro v _
    exact hbody _ v
  · rw [uptimePointsOf_of_ne 5 1 5 (by decide)]
    norm_num

/-- C3 instantiated at the scenario. -/
theorem C3_uptime_points_formula_witness :
    (1 : Int) ≠ 5 ∧
    CalculateUptime scenarioCfg (runAggregate scenarioBlocks scenarioValidators)
      scenarioSprintf 1 5 = .ok scenarioReport ∧
    ((∀ (nodeRewards : Int) (v : ValidatorInfo),
      (scoreValidator nodeRewards 1 5 v).Info.UptimePoints =
        Float64.fin ((v.Info.UptimeCount : ℚ) / (((5 : Int) : ℚ) - ((1 : Int) : ℚ)) * 300)) ∧
    (∀ v ∈ scenarioReport.validatorsList,
      v.Info.UptimePoints =
        Float64.fin ((v.Info.UptimeCount : ℚ) / (((5 : Int) : ℚ) - ((1 : Int) : ℚ)) * 300)) ∧
    scenarioReport.validatorsList.map (fun v => v.Info.UptimePoints) =
      (runAggregate scenarioBlocks scenarioValidators (uptimeQuery scenarioCfg 1 5)).map
        (fun r =>
          Float64.fin ((r.Uptime_count : ℚ) / (((5 : Int) : ℚ) - ((1 : Int) : ℚ)) * 300)) ∧
    uptimePointsOf 5 1 5 = Float64.fin 375) :=
  ⟨by decide, scenario_run,
    C3_uptime_points_formula scenarioCfg (runAggregate scenarioBlocks scenarioValidators)
      scenarioSprintf 1 5 scenarioReport (by decide) scenario_run⟩

/-- Full participation in the inclusive range scores more than 300: the count is
`endBlock - startBlock + 1` and the denominator `endBlock - startBlock`. -/
theorem uptimePointsOf_full_range (startBlock endBlock : Int) (h : startBlock < endBlock) :
    uptimePointsOf (endBlock - startBlock + 1) startBlock endBlock =
      Float64.fin (300 + 300 / ((endBlock : ℚ) - (startBlock : ℚ))) := by
  rw [uptimePointsOf_of_ne _ _ _ (by omega)]
  have hne : (endBlock : ℚ) - (startBlock : ℚ) ≠ 0 := by
    have : (startBlock : ℚ) < endBlock := by exact_mod_cast h
    linarith
  congr 1
  push_cast
  field_simp
  ring

/-- C4, at a concrete input: in the scenario `V1` signs every block of the range `[1, 5]`
(uptime count 5, the number of blocks of the range) and is given 375 uptime points. -/
theorem C4_full_participation_scores_375 :
    (runAggregate scenarioBlocks scenarioValidators (uptimeQuery scenarioCfg 1 5)).map
      (fun r => r.Uptime_count) = [5 - 1 + 1] ∧
    (CalculateUptime scenarioCfg (runAggregate scenarioBlocks scenarioValidators)
        scenarioSprintf 1 5).map
      (fun report => report.validatorsList.map (fun v => v.Info.UptimePoints)) =
        .ok [Float64.fin 375] ∧
    uptimePointsOf (5 - 1 + 1) 1 5 ≠ Float64.fin 300 := by
  refine ⟨by rfl, ?_, ?_⟩
  · rw [scenario_run]
    rfl
  · rw [uptimePointsOf_full_range 1 5 (by decide)]
    intro h
    rw [Float64.fin.injEq] at h
    norm_num at h

/-- C5, at a concrete input: the scenario run over `[5, 5]` is not rejected; it returns a
report whose row has `+Inf` as uptime points and as total points, the result of the
division by the zero denominator `endBlock - startBlock`. -/
theorem C5_counterexample :
    (CalculateUptime scenarioCfg (runAggregate scenarioBlocks scenarioValidators)
        scenarioSprintf 5 5).map
      (fun report =>
        report.validatorsList.map (fun v => (v.Info.UptimePoints, v.Info.TotalPoints))) =
      .ok [(Float64.posInf, Float64.posInf)] := by
  rw [scenario_run_one_block]
  rfl

/-- C5, amended: `CalculateUptime` has no range check. With `startBlock = endBlock` and an
aggregate in which every result has metadata, the run is not rejected: it goes through
the scoring loop and returns a report with one scored row per aggregate result, in the
order of the results and with their uptime counts. -/
theorem C5_equal_bounds_not_rejected (cfg : Config)
    (db : AggQuery → List ValAggregateResult) (sprintf : Float64 → String) (startBlock : Int)
    (hdetails : ∀ r ∈ db (uptimeQuery cfg startBlock startBlock), r.Validator_details ≠ []) :
    ∃ report, CalculateUptime cfg db sprintf startBlock startBlock = .ok report ∧
      report.validatorsList.length = (db (uptimeQuery cfg startBlock startBlock)).length ∧
      report.validatorsList.map (fun v => v.Info.UptimeCount) =
        (db (uptimeQuery cfg startBlock startBlock)).map (fun r => r.Uptime_count) := by
  obtain ⟨l, hl⟩ := buildValidatorsList_ok _ [] hdetails
  refine ⟨_, CalculateUptime_of_build cfg db sprintf startBlock startBlock l hl, ?_⟩
  have h1 := buildValidatorsList_map (fun v => v.Info.UptimeCount)
    (fun r => r.Uptime_count) (fun obj v hv => (buildValInfo_fields obj v hv).1) _ _ _ hl
  rw [List.map_nil, List.nil_append] at h1
  have h2 : (l.map (scoreValidator cfg.node_rewards startBlock startBlock)).map
      (fun v => v.Info.UptimeCount) = l.map (fun v => v.Info.UptimeCount) := by
    rw [List.map_map]
    rfl
  constructor
  · have h3 := congrArg List.length h1
    simp only [List.length_map] at h3
    simp only [List.length_map]
    exact h3
  · show (l.map (scoreValidator cfg.node_rewards startBlock startBlock)).map
      (fun v => v.Info.UptimeCount) = _
    rw [h2, h1]

/-- C5 as amended, instantiated at the scenario with the range `[5, 5]`. -/
theorem C5_equal_bounds_not_rejected_witness :
    (∀ r ∈ runAggregate scenarioBlocks scenarioValidators (uptimeQuery scenarioCfg 5 5),
      r.Validator_details ≠ []) ∧
    ∃ report, CalculateUptime scenarioCfg (runAggregate scenarioBlocks scenarioValidators)
        scenarioSprintf 5 5 = .ok report ∧
      report.validatorsList.length =
        (runAggregate scenarioBlocks scenarioValidators (uptimeQuery scenarioCfg 5 5)).length ∧
      report.validatorsList.map (fun v => v.Info.UptimeCount) =
        (runAggregate scenarioBlocks scenarioValidators (uptimeQuery scenarioCfg 5 5)).map
          (fun r => r.Uptime_count) :=
  ⟨by decide,
    C5_equal_bounds_not_rejected scenarioCfg (runAggregate scenarioBlocks scenarioValidators)
      scenarioSprintf 5 (by decide)⟩

/-- C6, at a concrete input: a result whose metadata array is empty ends the run with the
index panic of `obj.Validator_details[0]`; no row is produced. So for the result given
directly, and for the scenario aggregated with an empty `validators` collection. -/
theorem C6_empty_details_panics :
    CalculateUptime scenarioCfg
      (fun _ =>
        [{ ID := "V1", Uptime_count := 5, Upgrade1_block := 2, Upgrade2_block := 0,
           Validator_details := [] }])
      scenarioSprintf 1 5 = .error indexPanic ∧
    runAggregate scenarioBlocks [] (uptimeQuery scenarioCfg 1 5) =
      [{ ID := "V1", Uptime_count := 5, Upgrade1_block := 2, Upgrade2_block := 0,
         Validator_details := [] }] ∧
    CalculateUptime scenarioCfg (runAggregate scenarioBlocks []) scenarioSprintf 1 5 =
      .error indexPanic := by
  refine ⟨by rfl, by rfl, by rfl⟩

/-! ### The report rows -/

/-- A loop that appends one row per record hands over the rows of the records in order. -/
theorem foldl_append_row {α β : Type} (f : α → β) (data : List α) (written : List β) :
    data.foldl (fun written record => written ++ [f record]) written =
      written ++ data.map f := by
  induction data generalizing written with
  | nil => simp
  | cons record rest ih =>
    rw [List.foldl_cons, ih]
    simp

/-- C9: for every record the address in its line of the console table and the first field
of its CSV row are the same string: the operator address when that is not empty, and
otherwise the validator address followed by `" (Hex Address)"`. -/
theorem C9_same_display_address (sprintf : Float64 → String) (nodeRewards : Int)
    (data : ValidatorInfo) :
    tableAddress data = csvAddress data ∧
    csvAddress data =
      (if data.Info.OperatorAddr ≠ "" then data.Info.OperatorAddr
       else data.ValAddress ++ " (Hex Address)") ∧
    (addrObj sprintf nodeRewards data).head? = some (csvAddress data) ∧
    tableLine sprintf nodeRewards data =
      " " ++ (tableAddress data ++ ("\t " ++ (data.Info.Moniker ++
        ("\t  " ++ (Itoa data.Info.UptimeCount ++ ("\t " ++ (Itoa data.Info.Upgrade1Points ++
        (" \t" ++ (Itoa data.Info.Upgrade2Points ++ (" \t" ++ (sprintf data.Info.UptimePoints ++
        ("\t" ++ (Itoa nodeRewards ++ ("\t" ++ sprintf data.Info.TotalPoints)))))))))))))) := by
  refine ⟨rfl, ?_, rfl, ?_⟩
  · unfold csvAddress
    by_cases h : data.Info.OperatorAddr = ""
    · simp [h]
    · simp [h]
  · simp only [tableLine, String.append_assoc]

/-- C10: the rows `ExportToCsv` hands to the CSV writer are the header of 7 fields and then
one row per record, in the order of the input; every data row has 8 fields, and the
eighth, for which the header has no column, is the total points of the record. -/
theorem C10_csv_rows (sprintf : Float64 → String) (data : List ValidatorInfo)
    (nodeRewards : Int) :
    ExportToCsv sprintf data nodeRewards =
      ["ValOper Address", "Moniker", "Uptime Count", "elChoco Points",
        "Upgrade2 Points", "Uptime Points", "Node points"] ::
        data.map (addrObj sprintf nodeRewards) ∧
    (ExportToCsv sprintf data nodeRewards).length = data.length + 1 ∧
    Header.length = 7 ∧
    (∀ record : ValidatorInfo,
      (addrObj sprintf nodeRewards record).length = 8 ∧
      (addrObj sprintf nodeRewards record).length = Header.length + 1 ∧
      (addrObj sprintf nodeRewards record)[7]? = some (sprintf record.Info.TotalPoints)) := by
  have h : ExportToCsv sprintf data nodeRewards =
      Header :: data.map (addrObj sprintf nodeRewards) := by
    unfold ExportToCsv
    rw [foldl_append_row]
    rfl
  refine ⟨h, ?_, rfl, fun record => ⟨rfl, rfl, rfl⟩⟩
  rw [h]
  simp

end Uptime
